import Mathlib

/-!
Verification development for the Panama Papers ingestion pipeline
(`scripts/ingest_data.py`): a shallow embedding of the field normalizer
(`safe_date_parse`, `truncate_string`), the per-table record builders,
the batching loop of the table loaders, and the checkpoint-guarded
orchestrator (`main`), together with theorems settling the specified
properties.
-/

set_option autoImplicit false

namespace PanamaIngest

/-- A calendar date as produced by a successful `datetime.strptime` call in
`safe_date_parse`; the time-of-day part is always midnight and is not
modelled. -/
structure Date where
  year : Nat
  month : Nat
  day : Nat
deriving DecidableEq, Repr

/-- The Gregorian leap-year rule used by Python's `datetime`. -/
def isLeapYear (y : Nat) : Bool :=
  y % 4 == 0 && (y % 100 != 0 || y % 400 == 0)

/-- Number of days of month `m` in year `y`, as validated by
`datetime.datetime`. -/
def daysInMonth (y m : Nat) : Nat :=
  if m == 2 then (if isLeapYear y then 29 else 28)
  else if m == 4 || m == 6 || m == 9 || m == 11 then 30
  else 31

/-- `datetime.datetime(y, m, d)` succeeds exactly on these triples
(`MINYEAR = 1`, `MAXYEAR = 9999`). -/
def validDate (y m d : Nat) : Bool :=
  1 ≤ y && y ≤ 9999 && 1 ≤ m && m ≤ 12 && 1 ≤ d && d ≤ daysInMonth y m

/-- Python strings are sequences of characters; string manipulation is
modelled on `List Char` (structurally recursive, hence fully
evaluable). `str.strip()`: drop whitespace from both ends. -/
def trimChars (cs : List Char) : List Char :=
  ((cs.dropWhile Char.isWhitespace).reverse.dropWhile Char.isWhitespace).reverse

/-- Split on every occurrence of the separator character (the behaviour
of Python's `re` field decomposition of the date formats, where the
literal separators `-` and `/` stand between the directives): adjacent
separators produce empty fields. -/
def splitOnSep (sep : Char) : List Char → List (List Char)
  | [] => [[]]
  | c :: rest =>
    if c == sep then [] :: splitOnSep sep rest
    else
      match splitOnSep sep rest with
      | [] => [[c]]
      | g :: gs => (c :: g) :: gs

/-- Numeric value of a digit string (most significant digit first). -/
def digitsVal (cs : List Char) : Nat :=
  cs.foldl (fun n c => 10 * n + (c.toNat - 48)) 0

/-- `strptime`'s `%Y` directive: exactly four digits. -/
def parseY (cs : List Char) : Option Nat :=
  if cs.length == 4 && cs.all Char.isDigit then some (digitsVal cs) else none

/-- `strptime`'s bounded one-or-two-digit numeric directives (`%m` with
bounds 1–12, `%d` with bounds 1–31). -/
def parseNum2 (lo hi : Nat) (cs : List Char) : Option Nat :=
  if (cs.length == 1 || cs.length == 2) && cs.all Char.isDigit then
    let v := digitsVal cs
    if lo ≤ v && v ≤ hi then some v else none
  else none

/-- The C-locale month abbreviations matched (case-insensitively) by
`strptime`'s `%b` directive. -/
def monthAbbrevs : List String :=
  ["jan", "feb", "mar", "apr", "may", "jun", "jul", "aug", "sep", "oct", "nov", "dec"]

/-- One-based position of `cs` among the lowered abbreviations, starting
the count at `i + 1`. -/
def monthIdx : List String → Nat → List Char → Option Nat
  | [], _, _ => none
  | a :: rest, i, cs => if cs == a.toList then some (i + 1) else monthIdx rest (i + 1) cs

/-- `strptime`'s `%b` directive: a case-insensitive month abbreviation. -/
def parseMonthAbbrev (cs : List Char) : Option Nat :=
  monthIdx monthAbbrevs 0 (cs.map Char.toLower)

/-- The four date formats tried by `safe_date_parse`, in source order:
`'%Y-%m-%d'`, `'%d-%b-%Y'`, `'%Y/%m/%d'`, `'%d/%m/%Y'`. -/
inductive DateFormat
  | isoDash
  | dayMonYear
  | isoSlash
  | dmySlash
deriving DecidableEq, Repr

/-- Final calendar validation done by `datetime.datetime` inside
`strptime`: an out-of-range triple raises `ValueError`, modelled as
`none`. -/
def mkDate (y m d : Nat) : Option Date :=
  if validDate y m d then some ⟨y, m, d⟩ else none

/-- `datetime.strptime(s, fmt)` for the four formats of
`safe_date_parse`: the whole string must decompose into the three
separated fields, each field must match its directive, and the triple
must be a real calendar date; any failure raises `ValueError`, modelled
as `none`. -/
def tryFormat (f : DateFormat) (cs : List Char) : Option Date :=
  match f with
  | .isoDash =>
    match splitOnSep '-' cs with
    | [ys, ms, ds] => do
        let y ← parseY ys
        let m ← parseNum2 1 12 ms
        let d ← parseNum2 1 31 ds
        mkDate y m d
    | _ => none
  | .dayMonYear =>
    match splitOnSep '-' cs with
    | [ds, bs, ys] => do
        let d ← parseNum2 1 31 ds
        let m ← parseMonthAbbrev bs
        let y ← parseY ys
        mkDate y m d
    | _ => none
  | .isoSlash =>
    match splitOnSep '/' cs with
    | [ys, ms, ds] => do
        let y ← parseY ys
        let m ← parseNum2 1 12 ms
        let d ← parseNum2 1 31 ds
        mkDate y m d
    | _ => none
  | .dmySlash =>
    match splitOnSep '/' cs with
    | [ds, ms, ys] => do
        let d ← parseNum2 1 31 ds
        let m ← parseNum2 1 12 ms
        let y ← parseY ys
        mkDate y m d
    | _ => none

/-- The format list of `safe_date_parse`, in its source order. -/
def dateFormats : List DateFormat := [.isoDash, .dayMonYear, .isoSlash, .dmySlash]

/-- The `for fmt in formats: try ... except ValueError: continue` loop of
`safe_date_parse`: return the first successful parse, `none` if every
format fails. -/
def firstFormatParse : List DateFormat → List Char → Option Date
  | [], _ => none
  | f :: fs, cs =>
    match tryFormat f cs with
    | some d => some d
    | none => firstFormatParse fs cs

/-- `safe_date_parse` from `scripts/ingest_data.py`. The argument is the
raw cell: `none` models a missing value (`pd.isna`), `some s` a string
cell. The Python function is total (every `ValueError` is caught), so it
is modelled as a total function returning `Option Date`. -/
def safe_date_parse (date_str : Option String) : Option Date :=
  match date_str with
  | none => none
  | some s =>
    if s == "" || s == "null" then none
    else firstFormatParse dateFormats (trimChars s.toList)

/-- `truncate_string` from `scripts/ingest_data.py`: `none` for a missing
value, otherwise the string clipped to its first `max_length`
characters (`str_value[:max_length] if len(str_value) > max_length else
str_value`). -/
def truncate_string (value : Option String) (max_length : Nat) : Option String :=
  match value with
  | none => none
  | some s => some (if s.length > max_length then s.take max_length else s)

/-- One CSV row after pandas has lowercased and stripped the column
headers (`df.columns.str.lower().str.strip()`): an association list from
column name to cell. A key that is absent models a column the source
file does not have; a key mapped to `none` models a present column whose
cell is a missing value (`NaN` under `dtype=str`). -/
abbrev Row := List (String × Option String)

/-- `row.get(key, default)` on a pandas `Series`: the cell when the
column exists in the file (even when that particular cell is `NaN`),
the default only when the column itself is absent. -/
def rowGetD (row : Row) (key : String) (dflt : Option String) : Option String :=
  match row.lookup key with
  | some cell => cell
  | none => dflt

/-- `row.get(key)` with its implicit default of `None`. -/
def rowGet (row : Row) (key : String) : Option String :=
  rowGetD row key none

/-- Whether the source file has a column named `key`. -/
def hasCol (row : Row) (key : String) : Bool :=
  (row.lookup key).isSome

/-- The tuple built per row by `load_entities` (source lines 82–97),
with the truncation widths of the `entities` insert. -/
structure EntityRec where
  node_id : Option String
  name : Option String
  jurisdiction : Option String
  jurisdiction_desc : Option String
  country_codes : Option String
  countries : Option String
  incorporation_date : Option Date
  inactivation_date : Option Date
  struck_off_date : Option Date
  status : Option String
  service_provider : Option String
  source_id : Option String
  address : Option String
  internal_id : Option String
deriving DecidableEq, Repr

/-- The row-to-tuple mapping of `load_entities`. -/
def entity_record (row : Row) : EntityRec :=
  { node_id := truncate_string (rowGet row "node_id") 50
    name := truncate_string (rowGet row "name") 500
    jurisdiction := truncate_string (rowGet row "jurisdiction") 200
    jurisdiction_desc := truncate_string (rowGet row "jurisdiction_description") 500
    country_codes := truncate_string (rowGet row "country_codes") 200
    countries := truncate_string (rowGet row "countries") 500
    incorporation_date := safe_date_parse (rowGet row "incorporation_date")
    inactivation_date := safe_date_parse (rowGet row "inactivation_date")
    struck_off_date := safe_date_parse (rowGet row "struck_off_date")
    status := truncate_string (rowGet row "status") 100
    service_provider := truncate_string (rowGet row "service_provider") 200
    source_id := truncate_string (rowGetD row "sourceid" (rowGet row "source_id")) 100
    address := truncate_string (rowGet row "address") 1000
    internal_id := truncate_string (rowGet row "internal_id") 100 }

/-- The tuple built per row by `load_officers` (source lines 148–155). -/
structure OfficerRec where
  node_id : Option String
  name : Option String
  country_codes : Option String
  countries : Option String
  source_id : Option String
  valid_until : Option String
deriving DecidableEq, Repr

/-- The row-to-tuple mapping of `load_officers`. -/
def officer_record (row : Row) : OfficerRec :=
  { node_id := truncate_string (rowGet row "node_id") 50
    name := truncate_string (rowGet row "name") 500
    country_codes := truncate_string (rowGet row "country_codes") 200
    countries := truncate_string (rowGet row "countries") 500
    source_id := truncate_string (rowGetD row "sourceid" (rowGet row "source_id")) 100
    valid_until := truncate_string (rowGet row "valid_until") 100 }

/-- The tuple built per row by `load_intermediaries` (source lines
195–204). -/
structure IntermediaryRec where
  node_id : Option String
  name : Option String
  country_codes : Option String
  countries : Option String
  source_id : Option String
  status : Option String
  internal_id : Option String
  address : Option String
deriving DecidableEq, Repr

/-- The row-to-tuple mapping of `load_intermediaries`. -/
def intermediary_record (row : Row) : IntermediaryRec :=
  { node_id := truncate_string (rowGet row "node_id") 50
    name := truncate_string (rowGet row "name") 500
    country_codes := truncate_string (rowGet row "country_codes") 200
    countries := truncate_string (rowGet row "countries") 500
    source_id := truncate_string (rowGetD row "sourceid" (rowGet row "source_id")) 100
    status := truncate_string (rowGet row "status") 100
    internal_id := truncate_string (rowGet row "internal_id") 100
    address := truncate_string (rowGet row "address") 1000 }

/-- The tuple built per row by `load_addresses` (source lines 243–249). -/
structure AddressRec where
  node_id : Option String
  address : Option String
  country_codes : Option String
  countries : Option String
  source_id : Option String
deriving DecidableEq, Repr

/-- The row-to-tuple mapping of `load_addresses`; note the fallback
`row.get('address', row.get('name'))`. -/
def address_record (row : Row) : AddressRec :=
  { node_id := truncate_string (rowGet row "node_id") 50
    address := truncate_string (rowGetD row "address" (rowGet row "name")) 2000
    country_codes := truncate_string (rowGet row "country_codes") 200
    countries := truncate_string (rowGet row "countries") 500
    source_id := truncate_string (rowGetD row "sourceid" (rowGet row "source_id")) 100 }

/-- The tuple built per row by `load_relationships` (source lines
289–296). -/
structure RelationshipRec where
  node_id_start : Option String
  node_id_end : Option String
  rel_type : Option String
  source_id : Option String
  start_date : Option Date
  end_date : Option Date
deriving DecidableEq, Repr

/-- The row-to-tuple mapping of `load_relationships`: the two endpoints
and the relation type carry an alias fallback, the two date columns are
read under the single names `start_date` and `end_date`. -/
def relationship_record (row : Row) : RelationshipRec :=
  { node_id_start := truncate_string (rowGetD row "node_id_start" (rowGet row "start")) 50
    node_id_end := truncate_string (rowGetD row "node_id_end" (rowGet row "end")) 50
    rel_type := truncate_string (rowGetD row "rel_type" (rowGet row "type")) 100
    source_id := truncate_string (rowGetD row "sourceid" (rowGet row "source_id")) 100
    start_date := safe_date_parse (rowGet row "start_date")
    end_date := safe_date_parse (rowGet row "end_date") }

/-- The module-level constant `BATCH_SIZE = 5000`. -/
def BATCH_SIZE : Nat := 5000

/-- The accumulation loop shared by all five loaders: `acc` is the
pending `records` list; after appending a row the batch is flushed when
`len(records) >= B`, and the remaining partial batch (`if records:`) is
flushed after the loop. The result is the list of flushed batches in
flush order. -/
def batchLoop {α : Type} (B : Nat) : List α → List α → List (List α)
  | [], acc => if acc.isEmpty then [] else [acc]
  | r :: rest, acc =>
    let acc2 := acc ++ [r]
    if B ≤ acc2.length then acc2 :: batchLoop B rest [] else batchLoop B rest acc2

/-- The batches a loader flushes for a given source-row list, starting
from an empty `records` accumulator. -/
def loadBatches {α : Type} (B : Nat) (rows : List α) : List (List α) :=
  batchLoop B rows []

/-- The per-batch `executemany` loop of `load_entities` (source lines
100–118): a failing batch (`fails i` true for flush number `i`) is
rolled back and counted as a warning, and the loop continues; a
succeeding batch is committed and adds its length to `total_loaded`.
Returns `(total_loaded, number of recorded warnings, committed
batches)`. -/
def entityFlushLoop {α : Type} (fails : Nat → Bool) : Nat → List (List α) → Nat × Nat × List (List α)
  | _, [] => (0, 0, [])
  | i, b :: rest =>
    let r := entityFlushLoop fails (i + 1) rest
    if fails i then (r.1, r.2.1 + 1, r.2.2)
    else (b.length + r.1, r.2.1, b :: r.2.2)

/-- The per-batch `executemany` loop of `load_officers`,
`load_intermediaries`, `load_addresses` and `load_relationships`: no
`try`/`except` surrounds the flush, so the first failing batch aborts
the whole load while every earlier batch stays committed. `ok (n, cs)`
is a completed load of `n` rows with committed batches `cs`; `error (n,
cs)` is an aborted load whose prior committed batches `cs` hold `n`
rows. -/
def abortFlushLoop {α : Type} (fails : Nat → Bool) : Nat → List (List α) → Except (Nat × List (List α)) (Nat × List (List α))
  | _, [] => .ok (0, [])
  | i, b :: rest =>
    if fails i then .error (0, [])
    else
      match abortFlushLoop fails (i + 1) rest with
      | .ok r => .ok (b.length + r.1, b :: r.2)
      | .error r => .error (b.length + r.1, b :: r.2)

/-- `load_entities`' flush phase over its batches. -/
def load_entities_flush {α : Type} (fails : Nat → Bool) (bs : List (List α)) : Nat × Nat × List (List α) :=
  entityFlushLoop fails 0 bs

/-- `load_officers`' flush phase over its batches. -/
def load_officers_flush {α : Type} (fails : Nat → Bool) (bs : List (List α)) : Except (Nat × List (List α)) (Nat × List (List α)) :=
  abortFlushLoop fails 0 bs

/-- `load_intermediaries`' flush phase over its batches. -/
def load_intermediaries_flush {α : Type} (fails : Nat → Bool) (bs : List (List α)) : Except (Nat × List (List α)) (Nat × List (List α)) :=
  abortFlushLoop fails 0 bs

/-- `load_addresses`' flush phase over its batches. -/
def load_addresses_flush {α : Type} (fails : Nat → Bool) (bs : List (List α)) : Except (Nat × List (List α)) (Nat × List (List α)) :=
  abortFlushLoop fails 0 bs

/-- `load_relationships`' flush phase over its batches. -/
def load_relationships_flush {α : Type} (fails : Nat → Bool) (bs : List (List α)) : Except (Nat × List (List α)) (Nat × List (List α)) :=
  abortFlushLoop fails 0 bs

/-- The five destination tables. -/
inductive Table
  | entities
  | officers
  | intermediaries
  | addresses
  | relationships
deriving DecidableEq, Repr, Fintype

/-- Destination state: the current row count of each table (the quantity
queried by `table_count`). -/
abbrev DBState := Table → Nat

/-- What `main` does with one table, as recorded in its `stats` dict. -/
inductive LoadAction
  | loaded (n : Nat)
  | skipped (n : Nat)
deriving DecidableEq, Repr

/-- The count `main` stores in `stats` for an action. -/
def LoadAction.count : LoadAction → Nat
  | .loaded n => n
  | .skipped n => n

/-- One `if table_count(t) > 0: ... else: stats[t] = load_t(...)` block
of `main` (source lines 387–420): on a non-zero count the loader is not
invoked and the pre-existing count is reported; on a zero count the
loader runs, inserting the `src t` source rows (failure-free path; the
failure path is modelled by the flush loops above) and reporting the
count it returns. -/
def processTable (src : Table → Nat) (db : DBState) (t : Table) : DBState × (Table × LoadAction) :=
  if 0 < db t then (db, (t, .skipped (db t)))
  else (fun u => if u = t then src t else db u, (t, .loaded (src t)))

/-- Sequential processing of a list of tables, threading the destination
state and collecting the per-table actions in execution order. -/
def runTables (src : Table → Nat) : DBState → List Table → DBState × List (Table × LoadAction)
  | db, [] => (db, [])
  | db, t :: ts =>
    let s := processTable src db t
    let r := runTables src s.1 ts
    (r.1, s.2 :: r.2)

/-- The fixed table order of `main`'s body. -/
def tableOrder : List Table :=
  [.entities, .officers, .intermediaries, .addresses, .relationships]

/-- One run of `main`'s ingestion loop: `src t` is the row count of
table `t`'s source CSV file, `db` the destination state at start. -/
def mainRun (src : Table → Nat) (db : DBState) : DBState × List (Table × LoadAction) :=
  runTables src db tableOrder

/-- The per-table counts `main` prints from `stats`. -/
def statsOf (evs : List (Table × LoadAction)) : List (Table × Nat) :=
  evs.map (fun p => (p.1, p.2.count))

/-! ## Theorems -/

/-- If every format fails on `cs`, the format loop yields `none`. -/
theorem firstFormatParse_eq_none {cs : List Char} :
    ∀ {fs : List DateFormat}, (∀ f ∈ fs, tryFormat f cs = none) →
      firstFormatParse fs cs = none := by
  intro fs
  induction fs with
  | nil => intro _; rfl
  | cons f fs ih =>
    intro h
    have hf : tryFormat f cs = none := h f (List.mem_cons_self f fs)
    simpa [firstFormatParse, hf] using ih (fun g hg => h g (List.mem_cons_of_mem f hg))

/-- The format loop returns the parse of the first succeeding format. -/
theorem firstFormatParse_first_some {cs : List Char} {d : Date} :
    ∀ (fs1 : List DateFormat) (f : DateFormat) (fs2 : List DateFormat),
      (∀ g ∈ fs1, tryFormat g cs = none) → tryFormat f cs = some d →
      firstFormatParse (fs1 ++ f :: fs2) cs = some d := by
  intro fs1
  induction fs1 with
  | nil => intro f fs2 _ hf; simp [firstFormatParse, hf]
  | cons g gs ih =>
    intro f fs2 h hf
    have hg : tryFormat g cs = none := h g (by simp)
    simpa [firstFormatParse, hg] using ih f fs2 (fun x hx => h x (by simp [hx])) hf

/-- C1: `safe_date_parse` returns absent for a missing value, for the
empty string and for the literal text `"null"`; when none of the four
formats parses the stripped input it returns absent; and otherwise it
returns the parse produced by the first format, in the fixed source
order `dateFormats`, that succeeds. Totality of the Lean function models
that the Python function never raises. -/
theorem safe_date_parse_c1 :
    safe_date_parse none = none ∧
    safe_date_parse (some "") = none ∧
    safe_date_parse (some "null") = none ∧
    (∀ s : String, (∀ f ∈ dateFormats, tryFormat f (trimChars s.toList) = none) →
      safe_date_parse (some s) = none) ∧
    (∀ (s : String) (d : Date) (fs1 : List DateFormat) (f : DateFormat)
        (fs2 : List DateFormat),
      dateFormats = fs1 ++ f :: fs2 →
      (∀ g ∈ fs1, tryFormat g (trimChars s.toList) = none) →
      tryFormat f (trimChars s.toList) = some d →
      s ≠ "" → s ≠ "null" →
      safe_date_parse (some s) = some d) := by
  refine ⟨rfl, rfl, rfl, ?_, ?_⟩
  · intro s h
    unfold safe_date_parse
    by_cases hc : (s == "" || s == "null") = true
    · simp [hc]
    · simp only [Bool.not_eq_true] at hc
      simp only [hc, Bool.false_eq_true, if_false]
      exact firstFormatParse_eq_none h
  · intro s d fs1 f fs2 heq h1 hf hne1 hne2
    unfold safe_date_parse
    have hc : (s == "" || s == "null") = false := by
      simp [hne1, hne2]
    simp only [hc, Bool.false_eq_true, if_false]
    rw [heq]
    exact firstFormatParse_first_some fs1 f fs2 h1 hf

/-- Witness for C1 at a concrete input: `"03-Apr-2016"` fails the ISO
format but succeeds on the second format of the list. -/
theorem safe_date_parse_c1_witness :
    safe_date_parse (some "03-Apr-2016") = some ⟨2016, 4, 3⟩ :=
  safe_date_parse_c1.2.2.2.2 "03-Apr-2016" ⟨2016, 4, 3⟩
    [.isoDash] .dayMonYear [.isoSlash, .dmySlash]
    rfl (by decide) (by decide) (by decide) (by decide)

/-- C2: `truncate_string` returns absent on absent input, the first
`maxLen` characters of a string longer than `maxLen`, and the string
unchanged when its length is at most `maxLen`. -/
theorem truncate_string_c2 :
    (∀ maxLen : Nat, truncate_string none maxLen = none) ∧
    (∀ (s : String) (maxLen : Nat), maxLen < s.length →
      truncate_string (some s) maxLen = some (s.take maxLen)) ∧
    (∀ (s : String) (maxLen : Nat), s.length ≤ maxLen →
      truncate_string (some s) maxLen = some s) := by
  refine ⟨fun _ => rfl, ?_, ?_⟩
  · intro s m h
    simp only [truncate_string]
    rw [if_pos h]
  · intro s m h
    simp only [truncate_string]
    rw [if_neg (Nat.not_lt.mpr h)]

/-- Witness for C2 at concrete inputs: a 5-character string against
limits 3 and 10. -/
theorem truncate_string_c2_witness :
    truncate_string (some "hello") 3 = some "hel" ∧
    truncate_string (some "hello") 10 = some "hello" :=
  ⟨truncate_string_c2.2.1 "hello" 3 (by decide), truncate_string_c2.2.2 "hello" 10 (by decide)⟩

/-- Concatenating the flushed batches recovers the pending accumulator
followed by the remaining input, in order. -/
theorem batchLoop_flatten {α : Type} (B : Nat) :
    ∀ (rows acc : List α), (batchLoop B rows acc).flatten = acc ++ rows := by
  intro rows
  induction rows with
  | nil =>
    intro acc
    by_cases h : acc.isEmpty
    · simp [batchLoop, h, List.isEmpty_iff.mp h]
    · simp [batchLoop, h]
  | cons r rest ih =>
    intro acc
    simp only [batchLoop]
    by_cases h : B ≤ (acc ++ [r]).length
    · rw [if_pos h]
      simp [ih]
    · rw [if_neg h]
      simp [ih (acc ++ [r])]

/-- Number of flushes performed by the batching loop, as a ceiling
division, provided the pending accumulator is still below the batch
size. -/
theorem batchLoop_length {α : Type} (B : Nat) (hB : 0 < B) :
    ∀ (rows acc : List α), acc.length < B →
      (batchLoop B rows acc).length = (acc.length + rows.length + (B - 1)) / B := by
  intro rows
  induction rows with
  | nil =>
    intro acc hacc
    by_cases h : acc.isEmpty
    · have hnil : acc = [] := List.isEmpty_iff.mp h
      subst hnil
      simp only [batchLoop, if_pos h, List.length_nil]
      rw [Nat.div_eq_of_lt (by omega)]
    · have hne : acc ≠ [] := fun hnil => h (by simp [hnil])
      have hpos : 0 < acc.length := List.length_pos.mpr hne
      have h1 : (acc.length + 0 + (B - 1)) / B = 1 := by
        apply Nat.div_eq_of_lt_le <;> omega
      simp only [batchLoop, h, Bool.false_eq_true, if_false, List.length_singleton]
      exact h1.symm
  | cons r rest ih =>
    intro acc hacc
    simp only [batchLoop, List.length_cons]
    by_cases h : B ≤ (acc ++ [r]).length
    · rw [if_pos h]
      have hfull : acc.length + 1 = B := by
        simp only [List.length_append, List.length_singleton] at h
        omega
      have h0 := ih ([] : List α) hB
      simp only [List.length_nil, Nat.zero_add] at h0
      simp only [List.length_cons, h0]
      have harith : acc.length + (rest.length + 1) + (B - 1) = rest.length + (B - 1) + B := by
        omega
      rw [harith, Nat.add_div_right _ hB]
    · rw [if_neg h]
      have hlt : (acc ++ [r]).length < B := Nat.lt_of_not_le h
      rw [ih (acc ++ [r]) hlt]
      simp only [List.length_append, List.length_singleton]
      congr 1
      omega

/-- C3: for a source of `N` rows and batch size `B` (module default
`BATCH_SIZE = 5000`), the loader loop performs exactly `⌈N / B⌉`
`executemany` calls, the flushed batches concatenate back to the `N`
source rows in order (so their sizes sum to `N`), and the trailing
partial batch is flushed at end of input — nothing is left pending. -/
theorem loadBatches_c3 {α : Type} (B : Nat) (rows : List α) (hB : 0 < B) :
    (loadBatches B rows).length = (rows.length + B - 1) / B ∧
    ((loadBatches B rows).map List.length).sum = rows.length ∧
    (loadBatches B rows).flatten = rows := by
  have hj : (loadBatches B rows).flatten = rows := by
    simpa using batchLoop_flatten B rows []
  refine ⟨?_, ?_, hj⟩
  · have hl := batchLoop_length B hB rows [] (by simpa using hB)
    simp only [List.length_nil, Nat.zero_add] at hl
    rw [loadBatches, hl]
    congr 1
    omega
  · rw [← List.length_flatten, hj]

/-- Witness for C3 at the module's batch size and a concrete 3-row
source. -/
theorem loadBatches_c3_witness :
    (loadBatches BATCH_SIZE (List.range 3)).length = (3 + BATCH_SIZE - 1) / BATCH_SIZE ∧
    ((loadBatches BATCH_SIZE (List.range 3)).map List.length).sum = 3 ∧
    (loadBatches BATCH_SIZE (List.range 3)).flatten = List.range 3 :=
  loadBatches_c3 BATCH_SIZE (List.range 3) (by decide)

/-- C4: the orchestrator's per-table block loads a table iff its row
count at the moment it is checked is zero: a non-zero count leaves the
destination untouched, does not invoke the loader, and reports the
pre-existing count; a zero count invokes the loader. -/
theorem processTable_c4 (src : Table → Nat) (db : DBState) (t : Table) :
    (0 < db t → processTable src db t = (db, (t, .skipped (db t)))) ∧
    (db t = 0 → processTable src db t =
      ((fun u => if u = t then src t else db u), (t, .loaded (src t)))) := by
  constructor
  · intro h
    unfold processTable
    rw [if_pos h]
  · intro h
    unfold processTable
    rw [if_neg (by omega)]

/-- Witness for C4: a destination already holding 7 rows is skipped and
reports 7; an empty destination is loaded. -/
theorem processTable_c4_witness :
    processTable (fun _ => 41) (fun _ => 7) .entities =
      ((fun _ => 7), (.entities, .skipped 7)) ∧
    processTable (fun _ => 41) (fun _ => 0) .officers =
      ((fun u => if u = .officers then 41 else 0), (.officers, .loaded 41)) :=
  ⟨(processTable_c4 (fun _ => 41) (fun _ => 7) .entities).1 (by decide),
    (processTable_c4 (fun _ => 41) (fun _ => 0) .officers).2 rfl⟩

/-- C8: the run's event trace lists exactly the five tables, in the
fixed source order, with relationships last; the sequential threading of
the destination state in `runTables` is what makes each table fully
processed or skipped before the next checkpoint is consulted. -/
theorem mainRun_c8 (src : Table → Nat) (db : DBState) :
    (mainRun src db).2.map Prod.fst = tableOrder ∧
    tableOrder = [.entities, .officers, .intermediaries, .addresses, .relationships] ∧
    ((mainRun src db).2.map Prod.fst).getLast? = some .relationships := by
  have hfst : ∀ (db : DBState) (t : Table), (processTable src db t).2.1 = t := by
    intro db t
    unfold processTable
    split <;> rfl
  have key : ∀ (ts : List Table) (db : DBState),
      (runTables src db ts).2.map Prod.fst = ts := by
    intro ts
    induction ts with
    | nil => intro db; rfl
    | cons t ts ih => intro db; simp [runTables, hfst, ih]
  refine ⟨key tableOrder db, rfl, ?_⟩
  show (List.map Prod.fst (runTables src db tableOrder).2).getLast? = some Table.relationships
  rw [key tableOrder db]
  rfl

/-- A destination in which every table is non-empty makes every block of
`main` take the skip branch, leaving the state unchanged. -/
theorem runTables_all_skip (src : Table → Nat) (db : DBState) (h : ∀ t, 0 < db t) :
    ∀ ts : List Table,
      runTables src db ts = (db, ts.map (fun t => (t, LoadAction.skipped (db t)))) := by
  intro ts
  induction ts with
  | nil => rfl
  | cons t ts ih =>
    have hp : processTable src db t = (db, (t, LoadAction.skipped (db t))) := by
      unfold processTable
      rw [if_pos (h t)]
    simp [runTables, hp, ih]

/-- A run from the empty destination fills each table with exactly its
source's rows. -/
theorem mainRun_empty_db (src : Table → Nat) :
    (mainRun src (fun _ => 0)).1 = src := by
  funext t
  cases t <;> simp [mainRun, runTables, tableOrder, processTable]

/-- A run from the empty destination records a `loaded` action for every
table, in order. -/
theorem mainRun_empty_trace (src : Table → Nat) :
    (mainRun src (fun _ => 0)).2 =
      tableOrder.map (fun t => (t, LoadAction.loaded (src t))) := by
  simp [mainRun, runTables, tableOrder, processTable]

/-- C5: with every source file non-empty, running the ingestion twice
from an empty destination leaves the destination exactly as one run
does: in the second run every table is skipped (no loader is invoked,
no rows are inserted) and the reported per-table counts are identical
to the first run's. -/
theorem mainRun_idempotent_c5 (src : Table → Nat) (h : ∀ t, 0 < src t) :
    (mainRun src (mainRun src (fun _ => 0)).1).1 = (mainRun src (fun _ => 0)).1 ∧
    (∀ ev ∈ (mainRun src (mainRun src (fun _ => 0)).1).2,
      ev.2 = LoadAction.skipped (src ev.1)) ∧
    statsOf (mainRun src (mainRun src (fun _ => 0)).1).2 =
      statsOf (mainRun src (fun _ => 0)).2 := by
  have hdb : (mainRun src (fun _ => 0)).1 = src := mainRun_empty_db src
  have hskip := runTables_all_skip src src h tableOrder
  refine ⟨?_, ?_, ?_⟩
  · rw [hdb]
    show (runTables src src tableOrder).1 = src
    rw [hskip]
  · rw [hdb]
    show ∀ ev ∈ (runTables src src tableOrder).2, ev.2 = LoadAction.skipped (src ev.1)
    rw [hskip]
    intro ev hev
    simp only [List.mem_map] at hev
    obtain ⟨t, _, rfl⟩ := hev
    rfl
  · rw [hdb, mainRun_empty_trace src]
    show statsOf (runTables src src tableOrder).2 = _
    rw [hskip]
    simp [statsOf, LoadAction.count]

/-- Witness for C5 with every source holding one row. -/
theorem mainRun_idempotent_c5_witness :
    (mainRun (fun _ => 1) (mainRun (fun _ => 1) (fun _ => 0)).1).1 =
      (mainRun (fun _ => 1) (fun _ => 0)).1 ∧
    (∀ ev ∈ (mainRun (fun _ => 1) (mainRun (fun _ => 1) (fun _ => 0)).1).2,
      ev.2 = LoadAction.skipped 1) ∧
    statsOf (mainRun (fun _ => 1) (mainRun (fun _ => 1) (fun _ => 0)).1).2 =
      statsOf (mainRun (fun _ => 1) (fun _ => 0)).2 :=
  mainRun_idempotent_c5 (fun _ => 1) (fun _ => Nat.one_pos)

/-- Total number of rows in a list of batches. -/
def sumLens {α : Type} (bs : List (List α)) : Nat := (bs.map List.length).sum

/-- The batches a skip-and-continue loader commits: those whose flush
number does not fail, in order. -/
def keptBatches {α : Type} (fails : Nat → Bool) : Nat → List (List α) → List (List α)
  | _, [] => []
  | i, b :: rest =>
    if fails i then keptBatches fails (i + 1) rest
    else b :: keptBatches fails (i + 1) rest

/-- Number of failing flush numbers among `i, …, i + n - 1`. -/
def failedCount (fails : Nat → Bool) : Nat → Nat → Nat
  | _, 0 => 0
  | i, n + 1 => (if fails i then 1 else 0) + failedCount fails (i + 1) n

/-- The entities flush loop processes every batch, returning the row
count of the committed (non-failing) batches, one warning per failing
batch, and the committed batches themselves. -/
theorem entityFlushLoop_eq {α : Type} (fails : Nat → Bool) :
    ∀ (bs : List (List α)) (i : Nat),
      entityFlushLoop fails i bs =
        (sumLens (keptBatches fails i bs), failedCount fails i bs.length,
          keptBatches fails i bs) := by
  intro bs
  induction bs with
  | nil => intro i; rfl
  | cons b rest ih =>
    intro i
    by_cases h : fails i
    · simp [entityFlushLoop, keptBatches, failedCount, h, ih (i + 1), Nat.add_comm]
    · simp [entityFlushLoop, keptBatches, failedCount, h, ih (i + 1), sumLens]

/-- With no failing batch, an abort-style flush loop commits everything
and reports the full count. -/
theorem abortFlushLoop_ok {α : Type} (fails : Nat → Bool) :
    ∀ (bs : List (List α)) (i : Nat),
      (∀ j, j < bs.length → fails (i + j) = false) →
      abortFlushLoop fails i bs = .ok (sumLens bs, bs) := by
  intro bs
  induction bs with
  | nil => intro i _; rfl
  | cons b rest ih =>
    intro i h
    have h0 : fails i = false := by simpa using h 0 (by simp)
    have hrest : ∀ j, j < rest.length → fails (i + 1 + j) = false := by
      intro j hj
      have := h (j + 1) (by simp; omega)
      rwa [show i + (j + 1) = i + 1 + j by omega] at this
    simp [abortFlushLoop, h0, ih (i + 1) hrest, sumLens]

/-- An abort-style flush loop stops at the first failing batch, leaving
exactly the batches before it committed. -/
theorem abortFlushLoop_error {α : Type} (fails : Nat → Bool) :
    ∀ (bs : List (List α)) (k i : Nat),
      k < bs.length → fails (i + k) = true →
      (∀ j, j < k → fails (i + j) = false) →
      abortFlushLoop fails i bs = .error (sumLens (bs.take k), bs.take k) := by
  intro bs
  induction bs with
  | nil =>
    intro k i hk _ _
    exact absurd hk (by simp)
  | cons b rest ih =>
    intro k i hk hfk hbefore
    cases k with
    | zero =>
      have h0 : fails i = true := by simpa using hfk
      simp [abortFlushLoop, h0, sumLens]
    | succ k =>
      have h0 : fails i = false := by simpa using hbefore 0 (Nat.succ_pos k)
      have hfk' : fails (i + 1 + k) = true := by
        rwa [show i + 1 + k = i + (k + 1) by omega]
      have hbefore' : ∀ j, j < k → fails (i + 1 + j) = false := by
        intro j hj
        have := hbefore (j + 1) (by omega)
        rwa [show i + (j + 1) = i + 1 + j by omega] at this
      have hk' : k < rest.length := by simpa using hk
      simp [abortFlushLoop, h0, ih k (i + 1) hk' hfk' hbefore', sumLens]

/-- C6: failure handling is not uniform across the five loaders. The
entities loader survives any pattern of batch failures: it processes
every batch, records one warning per failure, and returns the row count
of the committed batches only. Each of the other four loaders aborts at
its first failing batch, leaving exactly the previously committed
batches in place, and completes only when no batch fails. -/
theorem flush_policy_c6 {α : Type} (fails : Nat → Bool) (bs : List (List α)) :
    load_entities_flush fails bs =
      (sumLens (keptBatches fails 0 bs), failedCount fails 0 bs.length,
        keptBatches fails 0 bs) ∧
    (∀ k, k < bs.length → fails k = true → (∀ j, j < k → fails j = false) →
      load_officers_flush fails bs = .error (sumLens (bs.take k), bs.take k) ∧
      load_intermediaries_flush fails bs = .error (sumLens (bs.take k), bs.take k) ∧
      load_addresses_flush fails bs = .error (sumLens (bs.take k), bs.take k) ∧
      load_relationships_flush fails bs = .error (sumLens (bs.take k), bs.take k)) ∧
    ((∀ j, j < bs.length → fails j = false) →
      load_officers_flush fails bs = .ok (sumLens bs, bs) ∧
      load_intermediaries_flush fails bs = .ok (sumLens bs, bs) ∧
      load_addresses_flush fails bs = .ok (sumLens bs, bs) ∧
      load_relationships_flush fails bs = .ok (sumLens bs, bs)) := by
  refine ⟨entityFlushLoop_eq fails bs 0, ?_, ?_⟩
  · intro k hk hfk hbefore
    have he := abortFlushLoop_error fails bs k 0 hk (by simpa using hfk)
      (fun j hj => by simpa using hbefore j hj)
    exact ⟨he, he, he, he⟩
  · intro h
    have ho := abortFlushLoop_ok fails bs 0 (fun j hj => by simpa using h j hj)
    exact ⟨ho, ho, ho, ho⟩

/-- Witness for C6: three batches of which the second fails — the
entities loader keeps the first and third and records one warning, the
officers loader aborts with only the first batch committed. -/
theorem flush_policy_c6_witness :
    load_entities_flush (fun i => i == 1) [[0], [1, 2], [3]] = (2, 1, [[0], [3]]) ∧
    load_officers_flush (fun i => i == 1) [[0], [1, 2], [3]] = .error (1, [[0]]) := by
  constructor
  · rw [(flush_policy_c6 (fun i => i == 1) [[0], [1, 2], [3]]).1]
    decide
  · rw [((flush_policy_c6 (fun i => i == 1) [[0], [1, 2], [3]]).2.1 1 (by decide)
      (by decide) (by decide)).1]
    rfl

/-- C7 counterexample: the claim that the relationships start/end-date
pair is alias-resolved like the endpoints fails on the code. On a
relationships row whose only columns are the unprefixed pair `start` /
`end` holding date texts, both date fields come out absent — the
unprefixed names feed the endpoint fields instead — because
`load_relationships` reads its dates under the single names
`start_date` / `end_date` with no alias fallback (last conjunct). -/
theorem relationship_date_alias_counterexample :
    (relationship_record
      [("start", some "2016-04-03"), ("end", some "2016-04-05")]).start_date = none ∧
    (relationship_record
      [("start", some "2016-04-03"), ("end", some "2016-04-05")]).end_date = none ∧
    (relationship_record
      [("start", some "2016-04-03"), ("end", some "2016-04-05")]).node_id_start =
      some "2016-04-03" ∧
    (relationship_record [("start_date", some "2016-04-03")]).start_date =
      some ⟨2016, 4, 3⟩ := by
  refine ⟨rfl, rfl, rfl, ?_⟩
  decide

/-- C7 (amended): for every logical field that does have several source
header names, each loader resolves the first present alias preferring
the more specific name — `source_id` from `sourceid` else `source_id`
in all five loaders, the relationship endpoints and type from
`node_id_start` / `node_id_end` / `rel_type` else `start` / `end` /
`type`; a relationships file with a `start` column instead of
`node_id_start` loads the same logical values. The relationship
start/end-date pair, however, carries no alias: it is read under the
single names `start_date` / `end_date`. -/
theorem alias_resolution_c7 (row : Row) :
    (∀ c, row.lookup "sourceid" = some c →
      (entity_record row).source_id = truncate_string c 100 ∧
      (officer_record row).source_id = truncate_string c 100 ∧
      (intermediary_record row).source_id = truncate_string c 100 ∧
      (address_record row).source_id = truncate_string c 100 ∧
      (relationship_record row).source_id = truncate_string c 100) ∧
    (row.lookup "sourceid" = none →
      (entity_record row).source_id = truncate_string (rowGet row "source_id") 100 ∧
      (officer_record row).source_id = truncate_string (rowGet row "source_id") 100 ∧
      (intermediary_record row).source_id = truncate_string (rowGet row "source_id") 100 ∧
      (address_record row).source_id = truncate_string (rowGet row "source_id") 100 ∧
      (relationship_record row).source_id = truncate_string (rowGet row "source_id") 100) ∧
    (∀ c, row.lookup "node_id_start" = some c →
      (relationship_record row).node_id_start = truncate_string c 50) ∧
    (row.lookup "node_id_start" = none →
      (relationship_record row).node_id_start = truncate_string (rowGet row "start") 50) ∧
    (∀ c, row.lookup "node_id_end" = some c →
      (relationship_record row).node_id_end = truncate_string c 50) ∧
    (row.lookup "node_id_end" = none →
      (relationship_record row).node_id_end = truncate_string (rowGet row "end") 50) ∧
    (∀ c, row.lookup "rel_type" = some c →
      (relationship_record row).rel_type = truncate_string c 100) ∧
    (row.lookup "rel_type" = none →
      (relationship_record row).rel_type = truncate_string (rowGet row "type") 100) ∧
    ((relationship_record row).start_date = safe_date_parse (rowGet row "start_date") ∧
      (relationship_record row).end_date = safe_date_parse (rowGet row "end_date")) ∧
    (∀ (v : Option String) (rest : Row), rest.lookup "node_id_start" = none →
      relationship_record (("start", v) :: rest) =
        relationship_record (("node_id_start", v) :: rest)) := by
  refine ⟨?_, ?_, ?_, ?_, ?_, ?_, ?_, ?_, ⟨rfl, rfl⟩, ?_⟩
  · intro c h
    refine ⟨?_, ?_, ?_, ?_, ?_⟩ <;>
      simp [entity_record, officer_record, intermediary_record, address_record,
        relationship_record, rowGetD, h]
  · intro h
    refine ⟨?_, ?_, ?_, ?_, ?_⟩ <;>
      simp [entity_record, officer_record, intermediary_record, address_record,
        relationship_record, rowGetD, h]
  · intro c h
    simp [relationship_record, rowGetD, h]
  · intro h
    simp [relationship_record, rowGetD, h]
  · intro c h
    simp [relationship_record, rowGetD, h]
  · intro h
    simp [relationship_record, rowGetD, h]
  · intro c h
    simp [relationship_record, rowGetD, h]
  · intro h
    simp [relationship_record, rowGetD, h]
  · intro v rest h
    simp [relationship_record, rowGetD, rowGet, List.lookup, h]

/-- Witness for C7 at concrete rows: a `sourceid` cell wins over
`source_id`, and a relationships row carrying `start` loads the same
record as one carrying `node_id_start`. -/
theorem alias_resolution_c7_witness :
    (entity_record [("sourceid", some "A"), ("source_id", some "B")]).source_id =
      some "A" ∧
    relationship_record [("start", some "n1"), ("node_id_end", some "n2")] =
      relationship_record [("node_id_start", some "n1"), ("node_id_end", some "n2")] := by
  constructor
  · have h := ((alias_resolution_c7
      [("sourceid", some "A"), ("source_id", some "B")]).1 (some "A") rfl).1
    rw [h]
    decide
  · exact (alias_resolution_c7 []).2.2.2.2.2.2.2.2.2 (some "n1")
      [("node_id_end", some "n2")] rfl

/-- C9: when the addresses source file has no `address` column, the
`name` column's value is used as the address field, truncated to 2000
characters; when an `address` column exists its cell is used. -/
theorem address_name_fallback_c9 (row : Row) :
    (row.lookup "address" = none →
      (address_record row).address = truncate_string (rowGet row "name") 2000) ∧
    (∀ c, row.lookup "address" = some c →
      (address_record row).address = truncate_string c 2000) := by
  constructor
  · intro h
    simp [address_record, rowGetD, h]
  · intro c h
    simp [address_record, rowGetD, h]

/-- Witness for C9: a row with only a `name` column yields that value as
the address. -/
theorem address_name_fallback_c9_witness :
    (address_record [("name", some "X")]).address = some "X" := by
  have h := (address_name_fallback_c9 [("name", some "X")]).1 rfl
  rw [h]
  decide

/-- C10: alias fallback is resolved at column level, not per value: when
the preferred column exists in the file, the fallback column is never
consulted — a missing cell in the preferred column yields an absent
field even when the fallback column holds a value on that row — and the
fallback column is consulted only when the preferred column is entirely
absent from the file. -/
theorem alias_column_level_c10 (row : Row) :
    (∀ v, row.lookup "sourceid" = some none →
      row.lookup "source_id" = some (some v) →
      (entity_record row).source_id = none) ∧
    (row.lookup "sourceid" = none →
      (entity_record row).source_id = truncate_string (rowGet row "source_id") 100) ∧
    (∀ v, row.lookup "node_id_start" = some none →
      row.lookup "start" = some (some v) →
      (relationship_record row).node_id_start = none) := by
  refine ⟨?_, ?_, ?_⟩
  · intro v h _
    simp [entity_record, rowGetD, h, truncate_string]
  · intro h
    simp [entity_record, rowGetD, h]
  · intro v h _
    simp [relationship_record, rowGetD, h, truncate_string]

/-- Witness for C10: a row whose `sourceid` cell is missing but whose
`source_id` cell holds a value still yields an absent source_id. -/
theorem alias_column_level_c10_witness :
    (entity_record [("sourceid", none), ("source_id", some "SRC")]).source_id = none :=
  (alias_column_level_c10 [("sourceid", none), ("source_id", some "SRC")]).1
    "SRC" rfl rfl

end PanamaIngest
